import Mathlib

/-!
Verification of the file-tree generation engine of tackle-box
(`cookiecutter/generate.py`).

The Python module is shallowly embedded as follows.

* The filesystem, the executed-hook history and the rmtree history together
  form a `World` record.  Paths are plain strings; `os.path.join a b` on a
  relative `b` is string concatenation with `"/"`, and entry names are single
  path components so `os.path.normpath` is the identity on the joins the
  walker performs (it only ever collapses a leading `./`, which `joinRel`
  does explicitly).  `os.makedirs` on nested fresh paths is subsumed because
  a path is one atomic string in the model.
* Jinja2 (a third-party collaborator, used through `StrictEnvironment`) is an
  oracle `JinjaEnv`: `compile` models `from_string`/`get_template` raising
  `TemplateSyntaxError` at compile time, `renderTmpl` models `.render(...)`
  producing either output text or an `UndefinedError`.  A single oracle per
  generation run represents both render-context shapes (`build_render_context`
  and `**input_dict`) since both expose the same mapping under the context
  key.
* `fnmatch.fnmatch` (Python standard library) is implemented as an
  executable glob matcher for `*`, `?` and `[seq]` / `[!seq]` classes; the
  fuel argument is only a termination device, the initial fuel is always
  sufficient because every step shrinks pattern-length plus string-length.
* Exceptions become the `GenError` sum type and fallible steps return
  `Except`; an error carries the world as it stands when the exception
  escapes `generate_files`, so cleanup-on-failure is observable.
* `shutil.copymode` / permission bits and the `c.post_gen_hooks` operator
  list are not modelled: no claim concerns them.
-/

namespace Tackle

/-! ## String helpers (list-based so that concrete runs evaluate) -/

def listIsPrefixC : List Char → List Char → Bool
  | [], _ => true
  | _ :: _, [] => false
  | a :: as, b :: bs => (a == b) && listIsPrefixC as bs

/-- Whether `pat` occurs as a substring of the second list. -/
def listContainsSub (pat : List Char) : List Char → Bool
  | [] => pat.isEmpty
  | c :: rest => listIsPrefixC pat (c :: rest) || listContainsSub pat rest

/-- Python `pat in s` on strings. -/
def strContains (s pat : String) : Bool := listContainsSub pat.data s.data

/-- Python `s.startswith(pat)`. -/
def strIsPrefix (pat s : String) : Bool := listIsPrefixC pat.data s.data

/-! ## Paths -/

/-- Python `os.path.join root name` for a single relative component, normalised:
`os.path.normpath(os.path.join('.', d)) = d`. -/
def joinRel (root name : String) : String :=
  if root = "." then name else root ++ "/" ++ name

/-- Python `os.path.join a b` where `b` is known to be relative to `a`. -/
def joinPath (a b : String) : String := a ++ "/" ++ b

/-- Python `os.path.join a b` with the absolute-override rule of `os.path.join`:
an absolute second argument discards the first. -/
def osJoin (a b : String) : String :=
  if strIsPrefix "/" b then b else a ++ "/" ++ b

/-- Python `os.path.relpath p base` in the only situation the generator uses it:
the path is `base`-relative when it starts with `base ++ "/"`. -/
def relpathM (p base : String) : String :=
  if strIsPrefix (base ++ "/") p then ⟨p.data.drop (base ++ "/").length⟩ else p

/-- Whether `q` lies inside the tree rooted at `pd` (or is `pd` itself); this is the
reach of `shutil.rmtree pd`. -/
def pathUnder (pd q : String) : Bool :=
  q = pd || strIsPrefix (pd ++ "/") q

/-! ## The world state -/

/-- Filesystem (directories and files with contents), the history of executed
lifecycle hooks (hook name, project directory) and the history of `rmtree`
calls.  The two histories are ghost state making "the hooks ran" and "the
output tree was deleted" directly observable. -/
structure World where
  dirs : List String
  files : List (String × String)
  hooksRun : List (String × String)
  deletions : List String
deriving Repr, DecidableEq

def World.empty : World := ⟨[], [], [], []⟩

/-- Python `os.path.exists`. -/
def World.existsPath (w : World) (p : String) : Bool :=
  w.dirs.any (fun d => d = p) || w.files.any (fun f => f.1 = p)

/-- Python `os.path.isdir`. -/
def World.isDir (w : World) (p : String) : Bool := w.dirs.any (fun d => d = p)

/-- Model of `make_sure_path_exists` / `os.makedirs`. -/
def World.mkdir (w : World) (p : String) : World :=
  { w with dirs := w.dirs ++ [p] }

/-- Python `open(p, 'w').write(c)` and `shutil.copyfile src p`: create or overwrite. -/
def World.writeFile (w : World) (p c : String) : World :=
  { w with files := w.files.filter (fun f => !(f.1 = p : Bool)) ++ [(p, c)] }

/-- Model of `rmtree pd`: remove everything under `pd` and record the call. -/
def World.rmtreeW (w : World) (pd : String) : World :=
  { w with
    dirs := w.dirs.filter (fun q => !(pathUnder pd q)),
    files := w.files.filter (fun f => !(pathUnder pd f.1)),
    deletions := w.deletions ++ [pd] }

/-- Record a lifecycle hook invocation. -/
def World.logHook (w : World) (hookName projectDir : String) : World :=
  { w with hooksRun := w.hooksRun ++ [(hookName, projectDir)] }

/-! ## fnmatch (Python standard library glob matching) -/

/-- Match a character against the body of a `[seq]` class, with `a-b`
ranges. -/
def matchClassChars : List Char → Char → Bool
  | [], _ => false
  | a :: '-' :: b :: rest, c =>
    (decide (a ≤ c) && decide (c ≤ b)) || matchClassChars rest c
  | a :: rest, c => (a == c) || matchClassChars rest c

/-- Split the characters following `[` at the closing `]`; `none` when there
is no closing bracket. -/
def findClose : List Char → Option (List Char × List Char)
  | [] => none
  | ']' :: t => some ([], t)
  | c :: t =>
    match findClose t with
    | none => none
    | some (cls, rest) => some (c :: cls, rest)

/-- Parse a `[seq]` class body: negation flag, class characters, remainder of
the pattern.  As in `fnmatch.translate`, a leading `!` negates and a `]`
directly after the (possibly negated) opening bracket is a literal member. -/
def classSplit (cs : List Char) : Option (Bool × List Char × List Char) :=
  match cs with
  | '!' :: ']' :: t =>
    match findClose t with
    | some (cls, rest) => some (true, ']' :: cls, rest)
    | none => none
  | '!' :: t =>
    match findClose t with
    | some (cls, rest) => some (true, cls, rest)
    | none => none
  | ']' :: t =>
    match findClose t with
    | some (cls, rest) => some (false, ']' :: cls, rest)
    | none => none
  | t =>
    match findClose t with
    | some (cls, rest) => some (false, cls, rest)
    | none => none

/-- Glob matching of a pattern against a string, with `*`, `?` and `[seq]`.
The fuel only forces termination; every recursive call strictly decreases
pattern-length plus string-length, so the wrapper's initial fuel always
suffices. -/
def globMatchFuel : Nat → List Char → List Char → Bool
  | 0, _, _ => false
  | _ + 1, [], s => s.isEmpty
  | n + 1, '*' :: ps, s =>
    globMatchFuel n ps s ||
      (match s with
       | [] => false
       | _ :: s2 => globMatchFuel n ('*' :: ps) s2)
  | n + 1, '?' :: ps, s =>
    (match s with
     | [] => false
     | _ :: s2 => globMatchFuel n ps s2)
  | n + 1, '[' :: ps, s =>
    (match classSplit ps with
     | none =>
       -- no closing bracket: the `[` is a literal character
       (match s with
        | '[' :: s2 => globMatchFuel n ps s2
        | _ => false)
     | some (neg, cls, rest) =>
       (match s with
        | [] => false
        | c :: s2 =>
          (if neg then !(matchClassChars cls c) else matchClassChars cls c) &&
            globMatchFuel n rest s2))
  | n + 1, p :: ps, s =>
    (match s with
     | c :: s2 => (p == c) && globMatchFuel n ps s2
     | [] => false)

/-- Python `fnmatch.fnmatch name pat` (POSIX `normcase` is the identity). -/
def fnmatchB (name pat : String) : Bool :=
  globMatchFuel (pat.length + name.length + 1) pat.data name.data

/-! ## Context -/

/-- The slice of `context[context_key]` that generation reads.  A `none`
field models the `KeyError` path for `_copy_without_render` (absence of the
key, or of the whole context key) and `.get('_new_lines', False)` returning
a falsy default. -/
structure ContextDict where
  copy_without_render : Option (List String)
  new_lines : Option String
deriving Repr, DecidableEq

/-- Source `is_copy_only_path(path, context)`: `True` when `path` matches one of the
`_copy_without_render` patterns; the `KeyError` for a missing pattern list is
caught and yields `False`. -/
def is_copy_only_path (path : String) (context : ContextDict) : Bool :=
  match context.copy_without_render with
  | none => false
  | some pats => pats.any (fun pat => fnmatchB path pat)

/-! ## The rendering oracle (Jinja2 `StrictEnvironment`) -/

/-- Outcome of rendering a compiled template: text, or an
`UndefinedError` message. -/
inductive RenderOut where
  | ok (s : String)
  | undefErr (e : String)
deriving Repr, DecidableEq

/-- Outcome of `from_string(t).render(...)`: compile may raise
`TemplateSyntaxError`, rendering may raise `UndefinedError`. -/
inductive RenderResult where
  | ok (s : String)
  | undefErr (e : String)
  | syntaxErr (m : String)
deriving Repr, DecidableEq

/-- The Jinja2 environment for one generation run.  `compile` returns the
`TemplateSyntaxError` message of a malformed template, `renderTmpl` the
render outcome of a well-formed one. -/
structure JinjaEnv where
  compile : String → Option String
  renderTmpl : String → RenderOut

/-- Jinja `env.from_string(t).render(...)` (also `get_template` followed by
`render`, which compiles against the same source text). -/
def jrender (env : JinjaEnv) (t : String) : RenderResult :=
  match env.compile t with
  | some m => .syntaxErr m
  | none =>
    match env.renderTmpl t with
    | .ok s => .ok s
    | .undefErr e => .undefErr e

/-! ## Template trees and errors -/

/-- A node of the template tree under the template root.  Names are single
path components; a file carries its on-disk content and its
`binaryornot.check.is_binary` classification. -/
inductive Entry where
  | file (name : String) (content : String) (binary : Bool)
  | dir (name : String) (children : List Entry)
deriving Repr

/-- Fuel bound for the walk: exceeds the nesting depth of the tree. -/
def entriesFuel : List Entry → Nat
  | [] => 1
  | .file _ _ _ :: rest => 1 + entriesFuel rest
  | .dir _ ch :: rest => 1 + entriesFuel ch + entriesFuel rest

/-- The exceptions that can escape the generator (`cookiecutter.exceptions`
plus the library exceptions it lets through). -/
inductive GenError where
  | undefinedError (e : String)
  | templateSyntaxError (m : String) ( translated : Bool)
  | undefinedVariableInTemplate (msg : String) (cause : String)
  | outputDirExistsError (msg : String)
  | nonTemplatedInputDir
  | failedHook (hook : String)
  | fileExistsError (path : String)
  | fuelExhausted
deriving Repr, DecidableEq

/-! ## generate_file -/

/-- Python `io.TextIOWrapper.newlines` after `readline()` with newline mode set to the empty string: the
line ending of the first logical line of `content`, if any. -/
def detectNewlineAux : List Char → Option String
  | [] => none
  | '\r' :: '\n' :: _ => some "\r\n"
  | '\r' :: _ => some "\r"
  | '\n' :: _ => some "\n"
  | _ :: rest => detectNewlineAux rest

def detectNewline (content : String) : Option String :=
  detectNewlineAux content.data

/-- Replace every `\n` of `s` by `nl`. -/
def replaceLF (s nl : String) : String :=
  ⟨s.data.foldr (fun c acc => if c = '\n' then nl.data ++ acc else c :: acc) []⟩

/-- Writing text opened with `newline=nl`: `\n` is translated to `nl` when
`nl` is `\r` or `\r\n`; `newline=None` translates to `os.linesep`, which is
`\n` on the POSIX systems modelled here, and the empty-string and `\n` modes translate
nothing. -/
def applyNewline (s : String) (nl : Option String) : String :=
  match nl with
  | none => s
  | some nl => if nl = "\r\n" || nl = "\r" then replaceLF s nl else s

/-- Source `generate_file(project_dir, c, o)` with the template root as current
directory: render the output path, skip when it is a directory or (under
`skip_if_file_exists`) already present, copy binaries verbatim, otherwise
compile and render the content and write it with the detected or overridden
line ending.  (`shutil.copymode` is not modelled.) -/
def generate_file (project_dir : String) (env : JinjaEnv) (ctx : ContextDict)
    (skip_if_file_exists : Bool) (infile content : String) (binary : Bool)
    (w : World) : Except GenError World :=
  match jrender env infile with
  | .syntaxErr m => .error (.templateSyntaxError m true)
  | .undefErr e => .error (.undefinedError e)
  | .ok rendered =>
    if w.isDir (joinPath project_dir rendered) then .ok w
    else if skip_if_file_exists && w.existsPath (joinPath project_dir rendered) then
      .ok w
    else if binary then .ok (w.writeFile (joinPath project_dir rendered) content)
    else
      match env.compile content with
      | some m =>
        -- `exception.translated = False` before re-raising `get_template`'s
        -- TemplateSyntaxError
        .error (.templateSyntaxError m false)
      | none =>
        match env.renderTmpl content with
        | .undefErr e => .error (.undefinedError e)
        | .ok rendered_file =>
          .ok (w.writeFile (joinPath project_dir rendered)
            (applyNewline rendered_file
              (match ctx.new_lines with
               | some v => if v = "" then detectNewline content else some v
               | none => detectNewline content)))

/-! ## render_and_create_dir and friends -/

/-- Source `render_and_create_dir(dirname, c, o)`: render the name, join against the
output directory, reuse an existing directory only under
`overwrite_if_exists`, otherwise create it; the boolean is
`not output_dir_exists`, i.e. whether this call created the directory. -/
def render_and_create_dir (dirname : String) (env : JinjaEnv)
    (output_dir : String) (overwrite_if_exists : Bool) (w : World) :
    Except (GenError × World) (String × Bool × World) :=
  match jrender env dirname with
  | .syntaxErr m => .error (.templateSyntaxError m true, w)
  | .undefErr e => .error (.undefinedError e, w)
  | .ok rendered_dirname =>
    if w.existsPath (osJoin output_dir rendered_dirname) then
      if overwrite_if_exists then .ok (osJoin output_dir rendered_dirname, false, w)
      else
        .error (.outputDirExistsError
          ("Error: \"" ++ osJoin output_dir rendered_dirname ++
            "\" directory already exists"), w)
    else
      .ok (osJoin output_dir rendered_dirname, true,
        w.mkdir (osJoin output_dir rendered_dirname))

/-- Source `ensure_dir_is_templated` as a predicate: the source raises
`NonTemplatedInputDirException` exactly when this is `false`. -/
def ensure_dir_is_templated (dirname : String) : Bool :=
  strContains dirname "\x7b\x7b" && strContains dirname "\x7d\x7d"

/-- Source `_run_hook_from_repo_dir`: invoke the named hook (recorded in the hook
history); on `FailedHookException` delete the project directory when
`delete_project_on_failure` and re-raise.  `hookFails` is the oracle for the
hook subprocess outcome (a missing hook file is a successful no-op). -/
def run_hook_from_repo_dir (hook_name project_dir : String)
    (delete_project_on_failure : Bool) (hookFails : String → Bool)
    (w : World) : Except (GenError × World) World :=
  let w1 := w.logHook hook_name project_dir
  if hookFails hook_name then
    .error (.failedHook hook_name,
      if delete_project_on_failure then w1.rmtreeW project_dir else w1)
  else .ok w1

/-! ## The walk -/

/-- Model of `shutil.copytree`'s recursive verbatim copy of template entries below a
destination directory: no rendering anywhere beneath. -/
def copyTreeList (dst : String) : List Entry → World → World
  | [], w => w
  | .file n c _ :: rest, w => copyTreeList dst rest (w.writeFile (joinPath dst n) c)
  | .dir n ch :: rest, w =>
    copyTreeList dst rest (copyTreeList (joinPath dst n) ch (w.mkdir (joinPath dst n)))

/-- First loop of the walk body: `shutil.copytree` each copy-only
subdirectory to its rendered destination (`outdir` rendered outside any
try/except; `copytree` needs a fresh destination). -/
def copyDirsPhase (env : JinjaEnv) (ctx : ContextDict) (project_dir root : String) :
    List Entry → World → Except (GenError × World) World
  | [], w => .ok w
  | .file _ _ _ :: rest, w => copyDirsPhase env ctx project_dir root rest w
  | .dir d ch :: rest, w =>
    if is_copy_only_path (joinRel root d) ctx then
      match jrender env (joinPath project_dir (joinRel root d)) with
      | .syntaxErr m => .error (.templateSyntaxError m true, w)
      | .undefErr e => .error (.undefinedError e, w)
      | .ok outdir =>
        if w.existsPath outdir then .error (.fileExistsError outdir, w)
        else copyDirsPhase env ctx project_dir root rest
          (copyTreeList outdir ch (w.mkdir outdir))
    else copyDirsPhase env ctx project_dir root rest w

/-- Second loop of the walk body: `render_and_create_dir` for every
render-eligible subdirectory, turning an `UndefinedError` into
`UndefinedVariableInTemplate` after deleting the project directory when this
run created it. -/
def createDirsPhase (env : JinjaEnv) (ctx : ContextDict)
    (project_dir output_dir : String) (overwrite_if_exists del : Bool)
    (root : String) : List Entry → World → Except (GenError × World) World
  | [], w => .ok w
  | .file _ _ _ :: rest, w =>
    createDirsPhase env ctx project_dir output_dir overwrite_if_exists del root rest w
  | .dir d _ :: rest, w =>
    if is_copy_only_path (joinRel root d) ctx then
      createDirsPhase env ctx project_dir output_dir overwrite_if_exists del root rest w
    else
      match render_and_create_dir (joinPath project_dir (joinRel root d)) env
          output_dir overwrite_if_exists w with
      | .ok (_, _, w') =>
        createDirsPhase env ctx project_dir output_dir overwrite_if_exists del root rest w'
      | .error (.undefinedError e, w') =>
        .error (.undefinedVariableInTemplate
          ("Unable to create directory \x27" ++
            relpathM (joinPath project_dir (joinRel root d)) output_dir ++ "\x27") e,
          if del then w'.rmtreeW project_dir else w')
      | .error (e, w') => .error (e, w')

/-- Third loop of the walk body: every file at this level is either copied
verbatim to its rendered path (copy-only; the path render sits outside the
try/except) or handed to `generate_file`, whose `UndefinedError` is wrapped
into `UndefinedVariableInTemplate` after conditional cleanup. -/
def filesPhase (env : JinjaEnv) (ctx : ContextDict) (project_dir : String)
    (skip_if_file_exists del : Bool) (root : String) :
    List Entry → World → Except (GenError × World) World
  | [], w => .ok w
  | .dir _ _ :: rest, w =>
    filesPhase env ctx project_dir skip_if_file_exists del root rest w
  | .file f c b :: rest, w =>
    if is_copy_only_path (joinRel root f) ctx then
      match jrender env (joinRel root f) with
      | .syntaxErr m => .error (.templateSyntaxError m true, w)
      | .undefErr e => .error (.undefinedError e, w)
      | .ok outfile_rendered =>
        filesPhase env ctx project_dir skip_if_file_exists del root rest
          (w.writeFile (joinPath project_dir outfile_rendered) c)
    else
      match generate_file project_dir env ctx skip_if_file_exists (joinRel root f) c b w with
      | .ok w' => filesPhase env ctx project_dir skip_if_file_exists del root rest w'
      | .error (.undefinedError e) =>
        .error (.undefinedVariableInTemplate
          ("Unable to create file \x27" ++ joinRel root f ++ "\x27") e,
          if del then w.rmtreeW project_dir else w)
      | .error e => .error (e, w)

/-- The `dirs[:] = render_dirs` pruning: the walk recurses only into
render-eligible subdirectories. -/
def renderSubdirsOf (ctx : ContextDict) (root : String) (es : List Entry) :
    List (String × List Entry) :=
  es.filterMap (fun e =>
    match e with
    | .dir d ch =>
      if is_copy_only_path (joinRel root d) ctx then none else some (d, ch)
    | .file _ _ _ => none)

/-- Iterate a walk continuation over the pruned subdirectory list. -/
def walkList (walkF : String → List Entry → World → Except (GenError × World) World)
    (root : String) : List (String × List Entry) → World →
    Except (GenError × World) World
  | [], w => .ok w
  | (d, ch) :: rest, w =>
    match walkF (joinRel root d) ch w with
    | .error ew => .error ew
    | .ok w' => walkList walkF root rest w'

/-- One level of `os.walk('.')` and its recursion, fuelled (the fuel models
nothing: `generate_files` passes `entriesFuel` of the tree, which strictly
dominates the nesting depth, so the `fuelExhausted` branch is unreachable
from `generate_files`). -/
def walkDir (env : JinjaEnv) (ctx : ContextDict) (project_dir output_dir : String)
    (overwrite_if_exists skip_if_file_exists del : Bool) :
    Nat → String → List Entry → World → Except (GenError × World) World
  | 0, _, _, w => .error (.fuelExhausted, w)
  | n + 1, root, es, w =>
    match copyDirsPhase env ctx project_dir root es w with
    | .error ew => .error ew
    | .ok w1 =>
      match createDirsPhase env ctx project_dir output_dir overwrite_if_exists del root es w1 with
      | .error ew => .error ew
      | .ok w2 =>
        match filesPhase env ctx project_dir skip_if_file_exists del root es w2 with
        | .error ew => .error ew
        | .ok w3 =>
          walkList
            (fun r e wa =>
              walkDir env ctx project_dir output_dir overwrite_if_exists
                skip_if_file_exists del n r e wa)
            root (renderSubdirsOf ctx root es) w3

/-! ## generate_files -/

/-- Source `generate_files(o, c, s, m, settings)`.  `tmpl` is `find_template`'s
result: the top-level template directory's unrendered name and its children
(`none` when no template tree exists).  The returned string option is the
Python return value (`project_dir` or `None`). -/
def generate_files (env : JinjaEnv) (ctx : ContextDict)
    (tmpl : Option (String × List Entry)) (output_dir : String)
    (overwrite_if_exists skip_if_file_exists accept_hooks : Bool)
    (hookFails : String → Bool) (w : World) :
    Except (GenError × World) (Option String × World) :=
  match tmpl with
  | some (unrendered_dir, children) =>
    if ensure_dir_is_templated unrendered_dir then
      match render_and_create_dir unrendered_dir env output_dir overwrite_if_exists w with
      | .error (.undefinedError e, w') =>
        .error (.undefinedVariableInTemplate
          ("Unable to create project directory \x27" ++ unrendered_dir ++ "\x27") e, w')
      | .error (e, w') => .error (e, w')
      | .ok (project_dir, output_directory_created, w1) =>
        -- `os.path.abspath(project_dir)` is the identity: `output_dir` is
        -- handled as an absolute path; `delete_project_on_failure` is
        -- `output_directory_created`
        match
          (if accept_hooks then
            run_hook_from_repo_dir "pre_gen_project" project_dir
              output_directory_created hookFails w1
          else .ok w1) with
        | .error ew => .error ew
        | .ok w2 =>
          match
            walkDir env ctx project_dir output_dir overwrite_if_exists
              skip_if_file_exists output_directory_created
              (entriesFuel children) "." children w2 with
          | .error ew => .error ew
          | .ok w3 =>
            if accept_hooks then
              match
                run_hook_from_repo_dir "post_gen_project" project_dir
                  output_directory_created hookFails w3 with
              | .error ew => .error ew
              | .ok w4 =>
                -- `c.post_gen_hooks` operator execution is not modelled
                .ok (some project_dir, w4)
            else
              -- the `return project_dir` sits inside `if o.accept_hooks:`;
              -- without hooks the function falls off the end and returns None
              .ok (none, w3)
    else .error (.nonTemplatedInputDir, w)
  | none =>
    match
      (if accept_hooks then
        run_hook_from_repo_dir "post_gen_project" "." false hookFails w
      else .ok w) with
    | .error ew => .error ew
    | .ok w1 => .ok (none, w1)

/-! ## Invariants of the walk

`monoW`: nothing that existed disappears.  `stateOk`: additionally the
`rmtree` history is untouched.  Together they express "no cleanup
happened"; the `UndefinedVariableInTemplate` case of `walkInv` expresses
the conditional-cleanup contract. -/

def monoW (w w' : World) : Prop :=
  ∀ p, w.existsPath p = true → w'.existsPath p = true

def stateOk (w w' : World) : Prop :=
  w'.deletions = w.deletions ∧ monoW w w'

/-- Every consolidated message names the directory or file that failed. -/
def msgShape (msg : String) : Prop :=
  ∃ s, msg = "Unable to create directory \x27" ++ s ++ "\x27" ∨
    msg = "Unable to create file \x27" ++ s ++ "\x27" ∨
    msg = "Unable to create project directory \x27" ++ s ++ "\x27"

/-- The wrapped cause is a genuine `UndefinedError` produced by the
environment on some template. -/
def causeFrom (env : JinjaEnv) (cause : String) : Prop :=
  ∃ t, env.renderTmpl t = .undefErr cause

/-- Nothing under `pd` survives. -/
def cleanedUnder (pd : String) (w : World) : Prop :=
  ∀ p, pathUnder pd p = true → w.existsPath p = false

/-- Contract of every step of the walk, relative to the world `w` it starts
from: success and non-undefined-variable errors never clean up;
a surfaced `UndefinedVariableInTemplate` has a naming message, wraps a real
render failure, and has deleted the project directory exactly when
`del` (this run created the output directory) is set. -/
def walkInv (env : JinjaEnv) (pd : String) (del : Bool) (w : World) :
    Except (GenError × World) World → Prop
  | .ok w' => stateOk w w'
  | .error (.undefinedVariableInTemplate msg cause, w') =>
    msgShape msg ∧ causeFrom env cause ∧
      (if del then w'.deletions = w.deletions ++ [pd] ∧ cleanedUnder pd w'
       else stateOk w w')
  | .error (_, w') => stateOk w w'

theorem monoW_refl (w : World) : monoW w w := fun _ h => h

theorem monoW_trans {w1 w2 w3 : World} (h1 : monoW w1 w2) (h2 : monoW w2 w3) :
    monoW w1 w3 := fun p h => h2 p (h1 p h)

theorem stateOk_refl (w : World) : stateOk w w := ⟨rfl, monoW_refl w⟩

theorem stateOk_trans {w1 w2 w3 : World} (h1 : stateOk w1 w2) (h2 : stateOk w2 w3) :
    stateOk w1 w3 := ⟨h2.1.trans h1.1, monoW_trans h1.2 h2.2⟩

theorem existsPath_iff {w : World} {p : String} :
    w.existsPath p = true ↔ p ∈ w.dirs ∨ ∃ f ∈ w.files, f.1 = p := by
  simp only [World.existsPath, Bool.or_eq_true, List.any_eq_true,
    decide_eq_true_eq]
  constructor
  · rintro (⟨d, hd, rfl⟩ | h)
    · exact Or.inl hd
    · exact Or.inr h
  · rintro (h | h)
    · exact Or.inl ⟨p, h, rfl⟩
    · exact Or.inr h

theorem monoW_mkdir (w : World) (p : String) : monoW w (w.mkdir p) := by
  intro q h
  rw [existsPath_iff] at h ⊢
  simp only [World.mkdir, List.mem_append]
  rcases h with h | h
  · exact Or.inl (Or.inl h)
  · exact Or.inr h

theorem stateOk_mkdir (w : World) (p : String) : stateOk w (w.mkdir p) :=
  ⟨rfl, monoW_mkdir w p⟩

theorem monoW_writeFile (w : World) (p c : String) : monoW w (w.writeFile p c) := by
  intro q h
  rw [existsPath_iff] at h ⊢
  simp only [World.writeFile, List.mem_append]
  rcases h with h | ⟨f, hf, hfq⟩
  · exact Or.inl h
  · by_cases hq : q = p
    · subst hq
      exact Or.inr ⟨(q, c), Or.inr (by simp), rfl⟩
    · refine Or.inr ⟨f, Or.inl (List.mem_filter.mpr ⟨hf, ?_⟩), hfq⟩
      simp [hfq, hq]

theorem stateOk_writeFile (w : World) (p c : String) : stateOk w (w.writeFile p c) :=
  ⟨rfl, monoW_writeFile w p c⟩

theorem stateOk_logHook (w : World) (h p : String) : stateOk w (w.logHook h p) :=
  ⟨rfl, fun _ hq => hq⟩

theorem cleanedUnder_rmtreeW (w : World) (pd : String) :
    cleanedUnder pd (w.rmtreeW pd) := by
  intro p hp
  rw [← Bool.not_eq_true, existsPath_iff]
  simp only [World.rmtreeW]
  rintro (h | ⟨f, hf, hfp⟩)
  · obtain ⟨-, hne⟩ := List.mem_filter.mp h
    simp [hp] at hne
  · obtain ⟨-, hne⟩ := List.mem_filter.mp hf
    rw [hfp, hp] at hne
    simp at hne

theorem rmtreeW_deletions (w : World) (pd : String) :
    (w.rmtreeW pd).deletions = w.deletions ++ [pd] := rfl

theorem stateOk_copyTreeList (dst : String) (es : List Entry) (w : World) :
    stateOk w (copyTreeList dst es w) := by
  induction dst, es, w using copyTreeList.induct with
  | case1 dst w =>
    simp only [copyTreeList]
    exact stateOk_refl w
  | case2 dst n c b rest w ih =>
    simp only [copyTreeList]
    exact stateOk_trans (stateOk_writeFile w (joinPath dst n) c) ih
  | case3 dst n ch rest w ih1 ih2 =>
    simp only [copyTreeList]
    exact stateOk_trans (stateOk_mkdir w (joinPath dst n)) (stateOk_trans ih1 ih2)

/-- Compose the invariant along sequential steps. -/
theorem walkInv_comp {env pd del w w1 r} (h1 : stateOk w w1)
    (h2 : walkInv env pd del w1 r) : walkInv env pd del w r := by
  match r with
  | .ok w' => exact stateOk_trans h1 h2
  | .error (.undefinedVariableInTemplate msg cause, w') =>
    obtain ⟨hm, hc, hrest⟩ := h2
    refine ⟨hm, hc, ?_⟩
    by_cases hdel : del
    · simp only [hdel, if_true] at hrest ⊢
      exact ⟨hrest.1.trans (by rw [h1.1]), hrest.2⟩
    · simp only [hdel, if_false] at hrest ⊢
      exact stateOk_trans h1 hrest
  | .error (.undefinedError e, w') => exact stateOk_trans h1 h2
  | .error (.templateSyntaxError m tr, w') => exact stateOk_trans h1 h2
  | .error (.outputDirExistsError m, w') => exact stateOk_trans h1 h2
  | .error (.nonTemplatedInputDir, w') => exact stateOk_trans h1 h2
  | .error (.failedHook h, w') => exact stateOk_trans h1 h2
  | .error (.fileExistsError p, w') => exact stateOk_trans h1 h2
  | .error (.fuelExhausted, w') => exact stateOk_trans h1 h2

/-! ### Facts about the atomic steps -/

theorem causeFrom_of_jrender {env : JinjaEnv} {t e : String}
    (h : jrender env t = .undefErr e) : causeFrom env e := by
  unfold jrender at h
  refine ⟨t, ?_⟩
  split at h
  · exact absurd h (by simp)
  · split at h <;> rename_i hrt
    · exact absurd h (by simp)
    · rw [RenderResult.undefErr.injEq] at h
      rw [h] at hrt
      exact hrt

theorem render_and_create_dir_err_cases {dirname : String} {env : JinjaEnv}
    {od : String} {ov : Bool} {w : World} {e : GenError} {w' : World}
    (h : render_and_create_dir dirname env od ov w = .error (e, w')) :
    w' = w ∧ ((∃ m, e = .templateSyntaxError m true ∧ jrender env dirname = .syntaxErr m) ∨
      (∃ s, e = .undefinedError s ∧ jrender env dirname = .undefErr s) ∨
      (∃ m, e = .outputDirExistsError m)) := by
  unfold render_and_create_dir at h
  split at h <;> rename_i hr
  · simp only [Except.error.injEq, Prod.mk.injEq] at h
    exact ⟨h.2.symm, Or.inl ⟨_, h.1.symm, hr⟩⟩
  · simp only [Except.error.injEq, Prod.mk.injEq] at h
    exact ⟨h.2.symm, Or.inr (Or.inl ⟨_, h.1.symm, hr⟩)⟩
  · split at h
    · split at h
      · exact absurd h (by simp)
      · simp only [Except.error.injEq, Prod.mk.injEq] at h
        exact ⟨h.2.symm, Or.inr (Or.inr ⟨_, h.1.symm⟩)⟩
    · exact absurd h (by simp)

theorem render_and_create_dir_ok_cases {dirname : String} {env : JinjaEnv}
    {od : String} {ov : Bool} {w : World} {d : String} {b : Bool} {w' : World}
    (h : render_and_create_dir dirname env od ov w = .ok (d, b, w')) :
    ∃ r, jrender env dirname = .ok r ∧ d = osJoin od r ∧
      ((w.existsPath d = true ∧ ov = true ∧ b = false ∧ w' = w) ∨
       (w.existsPath d = false ∧ b = true ∧ w' = w.mkdir d)) := by
  unfold render_and_create_dir at h
  split at h <;> rename_i hr
  · exact absurd h (by simp)
  · exact absurd h (by simp)
  · rename_i r
    split at h <;> rename_i hex
    · split at h <;> rename_i hov
      · simp only [Except.ok.injEq, Prod.mk.injEq] at h
        obtain ⟨rfl, rfl, rfl⟩ := h
        exact ⟨r, hr, rfl, Or.inl ⟨hex, hov, rfl, rfl⟩⟩
      · exact absurd h (by simp)
    · simp only [Except.ok.injEq, Prod.mk.injEq] at h
      obtain ⟨rfl, rfl, rfl⟩ := h
      exact ⟨r, hr, rfl, Or.inr ⟨by simpa using hex, rfl, rfl⟩⟩

theorem render_and_create_dir_ok {dirname : String} {env : JinjaEnv}
    {od : String} {ov : Bool} {w : World} {d : String} {b : Bool} {w' : World}
    (h : render_and_create_dir dirname env od ov w = .ok (d, b, w')) :
    stateOk w w' := by
  unfold render_and_create_dir at h
  split at h
  · exact absurd h (by simp)
  · exact absurd h (by simp)
  · split at h
    · split at h
      · simp only [Except.ok.injEq, Prod.mk.injEq] at h
        rw [← h.2.2]
        exact stateOk_refl w
      · exact absurd h (by simp)
    · simp only [Except.ok.injEq, Prod.mk.injEq] at h
      rw [← h.2.2]
      exact stateOk_mkdir w _

theorem generate_file_ok {pd : String} {env : JinjaEnv} {ctx : ContextDict}
    {sk : Bool} {infile content : String} {b : Bool} {w w' : World}
    (h : generate_file pd env ctx sk infile content b w = .ok w') :
    stateOk w w' := by
  unfold generate_file at h
  split at h
  · exact absurd h (by simp)
  · exact absurd h (by simp)
  · split at h
    · obtain rfl := Except.ok.inj h
      exact stateOk_refl w
    · split at h
      · obtain rfl := Except.ok.inj h
        exact stateOk_refl w
      · split at h
        · obtain rfl := Except.ok.inj h
          exact stateOk_writeFile w _ _
        · split at h
          · exact absurd h (by simp)
          · split at h
            · exact absurd h (by simp)
            · obtain rfl := Except.ok.inj h
              exact stateOk_writeFile w _ _

theorem generate_file_err_cases {pd : String} {env : JinjaEnv} {ctx : ContextDict}
    {sk : Bool} {infile content : String} {b : Bool} {w : World} {e : GenError}
    (h : generate_file pd env ctx sk infile content b w = .error e) :
    (∃ m tr, e = .templateSyntaxError m tr) ∨
      (∃ s, e = .undefinedError s ∧ causeFrom env s) := by
  unfold generate_file at h
  split at h <;> rename_i hr
  · rw [Except.error.injEq] at h
    exact Or.inl ⟨_, _, h.symm⟩
  · rw [Except.error.injEq] at h
    refine Or.inr ⟨_, h.symm, infile, ?_⟩
    unfold jrender at hr
    split at hr
    · exact absurd hr (by simp)
    · split at hr <;> rename_i hrt
      · exact absurd hr (by simp)
      · rw [RenderResult.undefErr.injEq] at hr
        rw [hr] at hrt
        exact hrt
  · split at h
    · exact absurd h (by simp)
    · split at h
      · exact absurd h (by simp)
      · split at h
        · exact absurd h (by simp)
        · split at h
          · rw [Except.error.injEq] at h
            exact Or.inl ⟨_, _, h.symm⟩
          · split at h <;> rename_i hrt
            · rw [Except.error.injEq] at h
              exact Or.inr ⟨_, h.symm, content, hrt⟩
            · exact absurd h (by simp)

/-! ### Phase invariants -/

theorem copyDirsPhase_inv (env : JinjaEnv) (ctx : ContextDict)
    (pd root : String) (del : Bool) (es : List Entry) (w : World) :
    walkInv env pd del w (copyDirsPhase env ctx pd root es w) := by
  induction es generalizing w with
  | nil => exact stateOk_refl w
  | cons e rest ih =>
    match e with
    | .file n c b =>
      simpa only [copyDirsPhase] using ih w
    | .dir d ch =>
      simp only [copyDirsPhase]
      split
      · split
        · exact stateOk_refl w
        · exact stateOk_refl w
        · split
          · exact stateOk_refl w
          · exact walkInv_comp
              (stateOk_trans (stateOk_mkdir w _) (stateOk_copyTreeList _ ch _)) (ih _)
      · exact ih w

theorem createDirsPhase_inv (env : JinjaEnv) (ctx : ContextDict)
    (pd od : String) (ov del : Bool) (root : String) (es : List Entry) (w : World) :
    walkInv env pd del w (createDirsPhase env ctx pd od ov del root es w) := by
  induction es generalizing w with
  | nil => exact stateOk_refl w
  | cons e rest ih =>
    match e with
    | .file n c b =>
      simpa only [createDirsPhase] using ih w
    | .dir d ch =>
      simp only [createDirsPhase]
      split
      · exact ih w
      · rename_i hnc
        cases hrcd : render_and_create_dir (joinPath pd (joinRel root d)) env od ov w with
        | ok res =>
          obtain ⟨dd, bb, w1⟩ := res
          exact walkInv_comp (render_and_create_dir_ok hrcd) (ih w1)
        | error ew =>
          obtain ⟨e0, w0⟩ := ew
          obtain ⟨rfl, hshape⟩ := render_and_create_dir_err_cases hrcd
          rcases hshape with ⟨m, rfl, -⟩ | ⟨s, rfl, hcause⟩ | ⟨m, rfl⟩
          · exact stateOk_refl _
          · refine ⟨⟨relpathM (joinPath pd (joinRel root d)) od, Or.inl rfl⟩,
              causeFrom_of_jrender hcause, ?_⟩
            by_cases hdel : del
            · simp only [hdel, if_true]
              exact ⟨rmtreeW_deletions _ pd, cleanedUnder_rmtreeW _ pd⟩
            · simp only [hdel, if_false]
              exact stateOk_refl _
          · exact stateOk_refl _

theorem filesPhase_inv (env : JinjaEnv) (ctx : ContextDict)
    (pd : String) (sk del : Bool) (root : String) (es : List Entry) (w : World) :
    walkInv env pd del w (filesPhase env ctx pd sk del root es w) := by
  induction es generalizing w with
  | nil => exact stateOk_refl w
  | cons e rest ih =>
    match e with
    | .dir d ch =>
      simpa only [filesPhase] using ih w
    | .file f c b =>
      simp only [filesPhase]
      split
      · split
        · exact stateOk_refl w
        · exact stateOk_refl w
        · exact walkInv_comp (stateOk_writeFile w _ _) (ih _)
      · cases hgf : generate_file pd env ctx sk (joinRel root f) c b w with
        | ok w1 => exact walkInv_comp (generate_file_ok hgf) (ih w1)
        | error e0 =>
          rcases generate_file_err_cases hgf with ⟨m, tr, rfl⟩ | ⟨s, rfl, hcause⟩
          · exact stateOk_refl _
          · refine ⟨⟨joinRel root f, Or.inr (Or.inl rfl)⟩, hcause, ?_⟩
            by_cases hdel : del
            · simp only [hdel, if_true]
              exact ⟨rmtreeW_deletions _ pd, cleanedUnder_rmtreeW _ pd⟩
            · simp only [hdel, if_false]
              exact stateOk_refl _

theorem walkList_inv {env : JinjaEnv} {pd : String} {del : Bool}
    (walkF : String → List Entry → World → Except (GenError × World) World)
    (hF : ∀ r e w, walkInv env pd del w (walkF r e w)) (root : String) :
    ∀ l w, walkInv env pd del w (walkList walkF root l w) := by
  intro l
  induction l with
  | nil => intro w; exact stateOk_refl w
  | cons p rest ih =>
    intro w
    obtain ⟨d, ch⟩ := p
    simp only [walkList]
    cases hw : walkF (joinRel root d) ch w with
    | error ew =>
      have hx := hF (joinRel root d) ch w
      rw [hw] at hx
      exact hx
    | ok w1 =>
      have hx := hF (joinRel root d) ch w
      rw [hw] at hx
      exact walkInv_comp hx (ih w1)

theorem walkDir_inv (env : JinjaEnv) (ctx : ContextDict) (pd od : String)
    (ov sk del : Bool) :
    ∀ n root es w,
      walkInv env pd del w (walkDir env ctx pd od ov sk del n root es w) := by
  intro n
  induction n with
  | zero => intro root es w; exact stateOk_refl w
  | succ n ih =>
    intro root es w
    simp only [walkDir]
    split
    next ew h1 =>
      have hx := copyDirsPhase_inv env ctx pd root del es w
      rw [h1] at hx
      exact hx
    next w1 h1 =>
      have s1 := copyDirsPhase_inv env ctx pd root del es w
      rw [h1] at s1
      refine walkInv_comp s1 ?_
      split
      next ew2 h2 =>
        have hx := createDirsPhase_inv env ctx pd od ov del root es w1
        rw [h2] at hx
        exact hx
      next w2 h2 =>
        have s2 := createDirsPhase_inv env ctx pd od ov del root es w1
        rw [h2] at s2
        refine walkInv_comp s2 ?_
        split
        next ew3 h3 =>
          have hx := filesPhase_inv env ctx pd sk del root es w2
          rw [h3] at hx
          exact hx
        next w3 h3 =>
          have s3 := filesPhase_inv env ctx pd sk del root es w2
          rw [h3] at s3
          refine walkInv_comp s3 ?_
          exact walkList_inv
            (fun r e wa => walkDir env ctx pd od ov sk del n r e wa)
            (fun r e wa => ih r e wa) root (renderSubdirsOf ctx root es) w3

theorem run_hook_ok {hn pdr : String} {del : Bool} {hf : String → Bool}
    {w w' : World} (h : run_hook_from_repo_dir hn pdr del hf w = .ok w') :
    w' = w.logHook hn pdr := by
  unfold run_hook_from_repo_dir at h
  split at h
  · exact absurd h (by simp)
  · exact (Except.ok.inj h).symm

theorem run_hook_err {hn pdr : String} {del : Bool} {hf : String → Bool}
    {w : World} {e : GenError} {w' : World}
    (h : run_hook_from_repo_dir hn pdr del hf w = .error (e, w')) :
    e = .failedHook hn := by
  unfold run_hook_from_repo_dir at h
  split at h
  · simp only [Except.error.injEq, Prod.mk.injEq] at h
    exact h.1.symm
  · exact absurd h (by simp)

/-! ## Error analysis of generate_files -/

/-- What each escaping exception kind guarantees about the final world of a
`generate_files` run that found a template tree: structural or syntax or
conflict errors never clean up; a consolidated undefined-variable error names
its entry, wraps a real render failure, and has deleted the output tree
exactly when this run created the output directory. -/
def genFilesErrProp (env : JinjaEnv) (topName od : String) (w w' : World) :
    GenError → Prop
  | .undefinedVariableInTemplate msg cause =>
    msgShape msg ∧ causeFrom env cause ∧
      (∀ s, jrender env topName = .undefErr s → w' = w) ∧
      (∀ r, jrender env topName = .ok r →
        (w.existsPath (osJoin od r) = true →
          w'.existsPath (osJoin od r) = true ∧ w'.deletions = w.deletions) ∧
        (w.existsPath (osJoin od r) = false →
          cleanedUnder (osJoin od r) w' ∧
            w'.deletions = w.deletions ++ [osJoin od r]))
  | .failedHook _ => True
  | _ => stateOk w w'

theorem genFilesErrProp_of_stateOk {env : JinjaEnv} {topName od : String}
    {w w1 w' : World} {e : GenError} (h1 : stateOk w w1)
    (h2 : genFilesErrProp env topName od w1 w' e)
    (htop : ∃ r, jrender env topName = .ok r)
    (hpd : ∀ r, jrender env topName = .ok r →
      (w.existsPath (osJoin od r) = w1.existsPath (osJoin od r)) ∧
      w1.deletions = w.deletions) :
    genFilesErrProp env topName od w w' e := by
  match e with
  | .undefinedVariableInTemplate msg cause =>
    obtain ⟨hm, hc, hu, hok⟩ := h2
    refine ⟨hm, hc, ?_, ?_⟩
    · intro s hs
      obtain ⟨r, hr⟩ := htop
      rw [hr] at hs
      exact absurd hs (by simp)
    · intro r hr
      obtain ⟨hokx, hdel⟩ := hpd r hr
      obtain ⟨hex, hnex⟩ := hok r hr
      constructor
      · intro hx
        rw [hx] at hokx
        obtain ⟨ha, hb⟩ := hex hokx.symm
        exact ⟨ha, hb.trans hdel⟩
      · intro hx
        rw [hx] at hokx
        obtain ⟨ha, hb⟩ := hnex hokx.symm
        exact ⟨ha, by rw [hb, hdel]⟩
  | .failedHook hk => trivial
  | .nonTemplatedInputDir => exact stateOk_trans h1 h2
  | .undefinedError s => exact stateOk_trans h1 h2
  | .templateSyntaxError m tr => exact stateOk_trans h1 h2
  | .outputDirExistsError m => exact stateOk_trans h1 h2
  | .fileExistsError p => exact stateOk_trans h1 h2
  | .fuelExhausted => exact stateOk_trans h1 h2

theorem genFilesErrProp_of_walk {env : JinjaEnv} {topName od : String}
    {r0 pd0 : String} {created : Bool} {w w1 w2 w' : World} {e : GenError}
    (hjr : jrender env topName = .ok r0) (hpd0 : pd0 = osJoin od r0)
    (hdisj : (w.existsPath pd0 = true ∧ created = false ∧ w1 = w) ∨
      (w.existsPath pd0 = false ∧ created = true ∧ w1 = w.mkdir pd0))
    (h12 : stateOk w1 w2 ∧ w2.existsPath pd0 = w1.existsPath pd0 ∧
      w2.deletions = w1.deletions)
    (hwi : walkInv env pd0 created w2 (.error (e, w'))) :
    genFilesErrProp env topName od w w' e := by
  obtain ⟨s12, hex12, hdel12⟩ := h12
  match e with
  | .undefinedVariableInTemplate msg cause =>
    obtain ⟨hm, hc, hif⟩ := hwi
    refine ⟨hm, hc, ?_, ?_⟩
    · intro s hs
      rw [hjr] at hs
      exact absurd hs (by simp)
    · intro r hr
      rw [hjr] at hr
      obtain rfl := RenderResult.ok.inj hr
      rw [← hpd0]
      rcases hdisj with ⟨hex, hb, hw1⟩ | ⟨hnex, hb, hw1⟩
      · rw [hb, if_neg (by simp)] at hif
        constructor
        · intro hx
          refine ⟨hif.2 pd0 ?_, ?_⟩
          · rw [hex12, hw1]
            exact hx
          · rw [hif.1, hdel12, hw1]
        · intro hx
          rw [hx] at hex
          exact absurd hex (by simp)
      · rw [hb, if_pos rfl] at hif
        constructor
        · intro hx
          rw [hx] at hnex
          exact absurd hnex (by simp)
        · intro hx
          refine ⟨hif.2, ?_⟩
          rw [hif.1, hdel12, hw1]
          rfl
  | .failedHook hk => trivial
  | .nonTemplatedInputDir =>
    refine stateOk_trans ?_ (stateOk_trans s12 hwi)
    rcases hdisj with ⟨-, -, hw1⟩ | ⟨-, -, hw1⟩
    · rw [hw1]; exact stateOk_refl w
    · rw [hw1]; exact stateOk_mkdir w pd0
  | .undefinedError s =>
    refine stateOk_trans ?_ (stateOk_trans s12 hwi)
    rcases hdisj with ⟨-, -, hw1⟩ | ⟨-, -, hw1⟩
    · rw [hw1]; exact stateOk_refl w
    · rw [hw1]; exact stateOk_mkdir w pd0
  | .templateSyntaxError m tr =>
    refine stateOk_trans ?_ (stateOk_trans s12 hwi)
    rcases hdisj with ⟨-, -, hw1⟩ | ⟨-, -, hw1⟩
    · rw [hw1]; exact stateOk_refl w
    · rw [hw1]; exact stateOk_mkdir w pd0
  | .outputDirExistsError m =>
    refine stateOk_trans ?_ (stateOk_trans s12 hwi)
    rcases hdisj with ⟨-, -, hw1⟩ | ⟨-, -, hw1⟩
    · rw [hw1]; exact stateOk_refl w
    · rw [hw1]; exact stateOk_mkdir w pd0
  | .fileExistsError p =>
    refine stateOk_trans ?_ (stateOk_trans s12 hwi)
    rcases hdisj with ⟨-, -, hw1⟩ | ⟨-, -, hw1⟩
    · rw [hw1]; exact stateOk_refl w
    · rw [hw1]; exact stateOk_mkdir w pd0
  | .fuelExhausted =>
    refine stateOk_trans ?_ (stateOk_trans s12 hwi)
    rcases hdisj with ⟨-, -, hw1⟩ | ⟨-, -, hw1⟩
    · rw [hw1]; exact stateOk_refl w
    · rw [hw1]; exact stateOk_mkdir w pd0

/-- Master error analysis: whatever exception escapes a `generate_files` run
that found a template tree, `genFilesErrProp` describes the final world. -/
theorem generate_files_err {env : JinjaEnv} {ctx : ContextDict}
    {topName : String} {children : List Entry} {od : String}
    {ov sk ah : Bool} {hf : String → Bool} {w : World} {e : GenError}
    {w' : World}
    (h : generate_files env ctx (some (topName, children)) od ov sk ah hf w
      = .error (e, w')) :
    genFilesErrProp env topName od w w' e := by
  simp only [generate_files] at h
  split at h
  · -- template name is templated
    split at h
    next e1 w0 hm =>
      simp only [Except.error.injEq, Prod.mk.injEq] at h
      obtain ⟨he, hw⟩ := h
      obtain ⟨hww, hshape⟩ := render_and_create_dir_err_cases hm
      rcases hshape with ⟨m, hcon, -⟩ | ⟨s, hcon, hjr⟩ | ⟨m, hcon⟩
      · exact absurd hcon (by simp)
      · obtain rfl := GenError.undefinedError.inj hcon
        rw [← he]
        refine ⟨⟨topName, Or.inr (Or.inr rfl)⟩, causeFrom_of_jrender hjr, ?_, ?_⟩
        · intro s hs
          rw [← hw, hww]
        · intro r hr
          rw [hjr] at hr
          exact absurd hr (by simp)
      · exact absurd hcon (by simp)
    next e0 w0 hm =>
      simp only [Except.error.injEq, Prod.mk.injEq] at h
      obtain ⟨he, hw⟩ := h
      obtain ⟨hww, hshape⟩ := render_and_create_dir_err_cases hm
      rw [← he, ← hw, hww]
      rcases hshape with ⟨m, rfl, -⟩ | ⟨s, rfl, -⟩ | ⟨m, rfl⟩
      · exact stateOk_refl w
      · exact stateOk_refl w
      · exact stateOk_refl w
    next pd0 created w1 hm =>
      obtain ⟨r0, hjr, hpd0, hdisj⟩ := render_and_create_dir_ok_cases hm
      split at h
      next ew hh =>
        obtain ⟨e2, w2'⟩ := ew
        simp only [Except.error.injEq, Prod.mk.injEq] at h
        obtain ⟨he, -⟩ := h
        by_cases hah : ah
        · rw [if_pos hah] at hh
          rw [← he, run_hook_err hh]
          trivial
        · rw [if_neg hah] at hh
          exact absurd hh (by simp)
      next w2 hh =>
        have h12 : stateOk w1 w2 ∧ w2.existsPath pd0 = w1.existsPath pd0 ∧
            w2.deletions = w1.deletions := by
          by_cases hah : ah
          · rw [if_pos hah] at hh
            rw [run_hook_ok hh]
            exact ⟨⟨rfl, fun p hp => hp⟩, rfl, rfl⟩
          · rw [if_neg hah] at hh
            obtain rfl := Except.ok.inj hh
            exact ⟨stateOk_refl w1, rfl, rfl⟩
        split at h
        next ew hw =>
          obtain ⟨e3, w3'⟩ := ew
          simp only [Except.error.injEq, Prod.mk.injEq] at h
          obtain ⟨he, hw'⟩ := h
          have hwi := walkDir_inv env ctx pd0 od ov sk created
            (entriesFuel children) "." children w2
          rw [hw, he, hw'] at hwi
          have hdisj' : (w.existsPath pd0 = true ∧ created = false ∧ w1 = w) ∨
              (w.existsPath pd0 = false ∧ created = true ∧ w1 = w.mkdir pd0) := by
            rcases hdisj with ⟨hx, -, hb, hw1⟩ | ⟨hx, hb, hw1⟩
            · exact Or.inl ⟨hx, hb, hw1⟩
            · exact Or.inr ⟨hx, hb, hw1⟩
          exact genFilesErrProp_of_walk hjr hpd0 hdisj' h12 hwi
        next w3 hw =>
          split at h
          · split at h
            next ew hh2 =>
              obtain ⟨e4, w4'⟩ := ew
              simp only [Except.error.injEq, Prod.mk.injEq] at h
              obtain ⟨he, -⟩ := h
              rw [← he, run_hook_err hh2]
              trivial
            next w4 hh2 => exact absurd h (by simp)
          · exact absurd h (by simp)
  · -- non-templated root: error raised before any mutation
    simp only [Except.error.injEq, Prod.mk.injEq] at h
    obtain ⟨he, hw⟩ := h
    rw [← he, ← hw]
    exact stateOk_refl w

/-! ## Concrete fixtures for witnesses and counterexamples -/

/-- An environment whose only non-trivial render maps the templated root name
to `proj`. -/
def envA : JinjaEnv :=
  ⟨fun _ => none,
   fun s => if s = "\x7b\x7bx\x7d\x7d" then .ok "proj" else .ok s⟩

/-! ## Claims -/

/-- Claim C9: `is_copy_only_path` returns `false` unconditionally (without
raising) when the context has no `_copy_without_render` list, and otherwise
returns `true` iff at least one pattern in the list fnmatch-matches the
literal path string; it is a pure function (its codomain is `Bool`, the model
has no effects to perform). -/
theorem claim9_is_copy_only_path (path : String) (nl : Option String)
    (pats : List String) :
    is_copy_only_path path ⟨none, nl⟩ = false ∧
    (is_copy_only_path path ⟨some pats, nl⟩ = true ↔
      ∃ pat ∈ pats, fnmatchB path pat = true) := by
  constructor
  · rfl
  · simp [is_copy_only_path, List.any_eq_true]

/-- Claim C7: `render_and_create_dir` on an already-existing rendered target
succeeds exactly when the overwrite flag is set and otherwise raises an
output-already-exists error whose message contains the offending path; the
returned newly-created flag is `true` iff the directory did not exist before
the call (`false` whenever an existing directory is reused). -/
theorem claim7_render_and_create_dir (dirname : String) (env : JinjaEnv)
    (od : String) (ov : Bool) (w : World) (r : String)
    (hr : jrender env dirname = .ok r) :
    (w.existsPath (osJoin od r) = true →
      ((∃ res, render_and_create_dir dirname env od ov w = .ok res) ↔ ov = true) ∧
      (ov = true →
        render_and_create_dir dirname env od ov w = .ok (osJoin od r, false, w)) ∧
      (ov = false →
        render_and_create_dir dirname env od ov w =
          .error (.outputDirExistsError
            ("Error: \"" ++ osJoin od r ++ "\" directory already exists"), w))) ∧
    (w.existsPath (osJoin od r) = false →
      render_and_create_dir dirname env od ov w
        = .ok (osJoin od r, true, w.mkdir (osJoin od r))) := by
  constructor
  · intro hex
    refine ⟨?_, ?_, ?_⟩
    · constructor
      · rintro ⟨res, hres⟩
        by_cases hov : ov
        · exact hov
        · simp only [render_and_create_dir, hr, hex, if_true] at hres
          rw [if_neg hov] at hres
          exact absurd hres (by simp)
      · intro hov
        exact ⟨(osJoin od r, false, w), by
          simp only [render_and_create_dir, hr, hex, if_true, hov]⟩
    · intro hov
      simp only [render_and_create_dir, hr, hex, if_true, hov]
    · intro hov
      simp only [render_and_create_dir, hr, hex, if_true, hov, Bool.false_eq_true,
        if_false]
  · intro hex
    simp only [render_and_create_dir, hr, hex, Bool.false_eq_true, if_false]

/-- Witness for C7 at a concrete input: rendering `{{x}}` to `proj` under
`/out` with an empty filesystem creates `/out/proj` and reports the
newly-created flag. -/
theorem claim7_witness :
    render_and_create_dir "\x7b\x7bx\x7d\x7d" envA "/out" false World.empty
      = .ok ("/out/proj", true, World.empty.mkdir "/out/proj") := by
  have h := claim7_render_and_create_dir "\x7b\x7bx\x7d\x7d" envA "/out" false
    World.empty "proj" (by rfl)
  have h2 := h.2 (by decide)
  simpa [osJoin, strIsPrefix, listIsPrefixC] using h2

/-- Claim C6: a template whose top-level directory name lacks the `{{`/`}}`
markers makes `generate_files` raise the non-templated-input error with the
world unchanged, i.e. before any output directory or file is created. -/
theorem claim6_non_templated (env : JinjaEnv) (ctx : ContextDict)
    (topName : String) (children : List Entry) (od : String)
    (ov sk ah : Bool) (hf : String → Bool) (w : World)
    (h : ensure_dir_is_templated topName = false) :
    generate_files env ctx (some (topName, children)) od ov sk ah hf w
      = .error (.nonTemplatedInputDir, w) := by
  simp only [generate_files, h, Bool.false_eq_true, if_false]

/-- Witness for C6: the spec's scenario, a root named `static-folder`. -/
theorem claim6_witness :
    generate_files envA ⟨none, none⟩ (some ("static-folder", [])) "/out"
      false false true (fun _ => false) World.empty
      = .error (.nonTemplatedInputDir, World.empty) :=
  claim6_non_templated envA ⟨none, none⟩ "static-folder" [] "/out"
    false false true (fun _ => false) World.empty (by decide)

/-- Claim C2 (code bug): with the accept-hooks flag off, a run that finds a
template tree still creates the project on disk but returns the no-project
signal `None`, because the `return project_dir` statement is nested inside
`if o.accept_hooks:`; with hooks accepted the same run returns the project
path.  The claim (and spec contract) say the path is returned regardless of
the flag. -/
theorem claim2_return_nested_under_accept_hooks :
    generate_files envA ⟨none, none⟩ (some ("\x7b\x7bx\x7d\x7d", [])) "/out"
        false false false (fun _ => false) World.empty
      = .ok (none, World.empty.mkdir "/out/proj") ∧
    (World.empty.mkdir "/out/proj").existsPath "/out/proj" = true ∧
    generate_files envA ⟨none, none⟩ (some ("\x7b\x7bx\x7d\x7d", [])) "/out"
        false false true (fun _ => false) World.empty
      = .ok (some "/out/proj",
          ((World.empty.mkdir "/out/proj").logHook "pre_gen_project"
            "/out/proj").logHook "post_gen_project" "/out/proj") := by
  refine ⟨?_, by decide, ?_⟩
  · simp [generate_files, ensure_dir_is_templated, render_and_create_dir, jrender,
      envA, osJoin, strIsPrefix, listIsPrefixC, strContains, listContainsSub,
      World.existsPath, World.empty, entriesFuel, walkDir, copyDirsPhase,
      createDirsPhase, filesPhase, renderSubdirsOf, walkList, World.mkdir]
  · simp [generate_files, ensure_dir_is_templated, render_and_create_dir, jrender,
      envA, osJoin, strIsPrefix, listIsPrefixC, strContains, listContainsSub,
      World.existsPath, World.empty, entriesFuel, walkDir, copyDirsPhase,
      createDirsPhase, filesPhase, renderSubdirsOf, walkList, World.mkdir,
      run_hook_from_repo_dir, World.logHook]

/-- Counterexample to claim C3: in hooks-only mode (no template tree found)
with hooks accepted, only `post_gen_project` is invoked (with `.` as the
project directory); `pre_gen_project` is never run, contradicting the claim
that both lifecycle hooks run. -/
theorem claim3_counterexample :
    generate_files envA ⟨none, none⟩ none "/out" false false true
        (fun _ => false) World.empty
      = .ok (none, World.empty.logHook "post_gen_project" ".") ∧
    ("pre_gen_project", ".") ∉
      (World.empty.logHook "post_gen_project" ".").hooksRun := by
  constructor
  · simp [generate_files, run_hook_from_repo_dir, World.logHook, World.empty]
  · decide

/-- Claim C3 as amended: when no template tree is found and hooks are
accepted, `generate_files` runs only the `post_gen_project` hook, with `.` as
the project directory, creates nothing on the filesystem, deletes nothing,
and returns `None`. -/
theorem claim3_hooks_only (env : JinjaEnv) (ctx : ContextDict) (od : String)
    (ov sk : Bool) (hf : String → Bool) (w : World)
    (h : hf "post_gen_project" = false) :
    generate_files env ctx none od ov sk true hf w
      = .ok (none, w.logHook "post_gen_project" ".") ∧
    (w.logHook "post_gen_project" ".").dirs = w.dirs ∧
    (w.logHook "post_gen_project" ".").files = w.files ∧
    (w.logHook "post_gen_project" ".").deletions = w.deletions ∧
    (w.logHook "post_gen_project" ".").hooksRun
      = w.hooksRun ++ [("post_gen_project", ".")] := by
  refine ⟨?_, rfl, rfl, rfl, rfl⟩
  simp only [generate_files, run_hook_from_repo_dir, h, Bool.false_eq_true,
    if_false, if_true]

/-- Witness for the amended C3 at a concrete input. -/
theorem claim3_witness :
    generate_files envA ⟨none, none⟩ none "/x" true true true
        (fun _ => false) World.empty
      = .ok (none, World.empty.logHook "post_gen_project" ".") :=
  (claim3_hooks_only envA ⟨none, none⟩ "/x" true true (fun _ => false)
    World.empty (by rfl)).1

/-- Claim C4: a template syntax error in a file's content is re-raised by
`generate_file` untranslated (`translated = False`) with its message
preserved, and any template-syntax-error escape of `generate_files` leaves
the `rmtree` history untouched and every existing path in place: the output
tree is not deleted even when this run created the output directory. -/
theorem claim4_syntax_error_no_cleanup :
    (∀ (pd : String) (env : JinjaEnv) (ctx : ContextDict) (sk : Bool)
      (infile content rp m : String) (w : World),
      jrender env infile = .ok rp →
      w.isDir (joinPath pd rp) = false →
      (sk && w.existsPath (joinPath pd rp)) = false →
      env.compile content = some m →
      generate_file pd env ctx sk infile content false w
        = .error (.templateSyntaxError m false)) ∧
    (∀ (env : JinjaEnv) (ctx : ContextDict) (topName : String)
      (children : List Entry) (od : String) (ov sk ah : Bool)
      (hf : String → Bool) (w : World) (m : String) ( translated : Bool)
      (w' : World),
      generate_files env ctx (some (topName, children)) od ov sk ah hf w
        = .error (.templateSyntaxError m translated , w') →
      w'.deletions = w.deletions ∧ monoW w w') := by
  constructor
  · intro pd env ctx sk infile content rp m w h1 h2 h3 h4
    simp only [generate_file, h1, h2, h3, h4, Bool.false_eq_true, if_false]
  · intro env ctx topName children od ov sk ah hf w m tr w' h
    exact generate_files_err h

/-- A compile oracle with one syntactically broken template, `bad`. -/
def envF : JinjaEnv :=
  ⟨fun s => if s = "bad" then some "unexpected end of template" else none,
   fun s => if s = "\x7b\x7bx\x7d\x7d" then .ok "proj" else .ok s⟩

/-- Witness for C4: a run whose file content is syntactically broken errors
with the untranslated syntax error and deletes nothing, although the output
directory was newly created. -/
theorem claim4_witness :
    generate_file "/out/proj" envF ⟨none, none⟩ false "f" "bad" false
        (World.empty.mkdir "/out/proj")
      = .error (.templateSyntaxError "unexpected end of template" false) ∧
    generate_files envF ⟨none, none⟩ (some ("\x7b\x7bx\x7d\x7d",
        [.file "f" "bad" false])) "/out" false false false (fun _ => false)
        World.empty
      = .error (.templateSyntaxError "unexpected end of template" false,
          World.empty.mkdir "/out/proj") ∧
    (World.empty.mkdir "/out/proj").deletions = World.empty.deletions := by
  have h1 : generate_file "/out/proj" envF ⟨none, none⟩ false "f" "bad" false
      (World.empty.mkdir "/out/proj")
      = .error (.templateSyntaxError "unexpected end of template" false) :=
    claim4_syntax_error_no_cleanup.1 "/out/proj" envF ⟨none, none⟩ false
      "f" "bad" "f" "unexpected end of template" (World.empty.mkdir "/out/proj")
      (by decide) (by decide) (by decide) (by decide)
  have h2 : generate_files envF ⟨none, none⟩ (some ("\x7b\x7bx\x7d\x7d",
      [.file "f" "bad" false])) "/out" false false false (fun _ => false)
      World.empty
      = .error (.templateSyntaxError "unexpected end of template" false,
          World.empty.mkdir "/out/proj") := by
    simp [generate_files, ensure_dir_is_templated, strContains, listContainsSub,
      listIsPrefixC, render_and_create_dir, jrender, envF, osJoin, strIsPrefix,
      World.existsPath, World.empty, entriesFuel, walkDir, copyDirsPhase,
      createDirsPhase, filesPhase, renderSubdirsOf, walkList, World.mkdir,
      is_copy_only_path, generate_file, joinRel, joinPath, World.isDir]
  exact ⟨h1, h2,
    (claim4_syntax_error_no_cleanup.2 envF ⟨none, none⟩ "\x7b\x7bx\x7d\x7d"
      [.file "f" "bad" false] "/out" false false false (fun _ => false)
      World.empty "unexpected end of template" false
      (World.empty.mkdir "/out/proj") h2).1⟩

/-- Claim C8: a rendered text file is written with the line-ending detected
from the input's first logical line; when the context's `_new_lines` value is
set (a non-empty string), that value is applied to every file regardless of
the file's own detected convention. -/
theorem claim8_new_lines (pd : String) (env : JinjaEnv)
    (cwr : Option (List String)) (sk : Bool) (infile content rp rf : String)
    (w : World)
    (h1 : jrender env infile = .ok rp)
    (h2 : w.isDir (joinPath pd rp) = false)
    (h3 : (sk && w.existsPath (joinPath pd rp)) = false)
    (h4 : env.compile content = none)
    (h5 : env.renderTmpl content = .ok rf) :
    (∀ v, v ≠ "" →
      generate_file pd env ⟨cwr, some v⟩ sk infile content false w
        = .ok (w.writeFile (joinPath pd rp) (applyNewline rf (some v)))) ∧
    generate_file pd env ⟨cwr, none⟩ sk infile content false w
      = .ok (w.writeFile (joinPath pd rp)
          (applyNewline rf (detectNewline content))) := by
  constructor
  · intro v hv
    simp only [generate_file, h1, h2, h3, h4, h5, Bool.false_eq_true, if_false,
      hv, if_neg hv]
  · simp only [generate_file, h1, h2, h3, h4, h5, Bool.false_eq_true, if_false]

/-- A render oracle for the round-trip scenario: a CRLF file body rendering
to text with plain `\n` separators. -/
def envG : JinjaEnv :=
  ⟨fun _ => none,
   fun s => if s = "a\r\nb" then .ok "x\ny" else .ok s⟩

/-- Witness for C8, the spec's round-trip: a CRLF input without override
produces CRLF output; `_new_lines = "\n"` forces LF. -/
theorem claim8_witness :
    generate_file "/p" envG ⟨none, none⟩ false "f" "a\r\nb" false World.empty
      = .ok (World.empty.writeFile "/p/f"
          (applyNewline "x\ny" (detectNewline "a\r\nb"))) ∧
    applyNewline "x\ny" (detectNewline "a\r\nb") = "x\r\ny" ∧
    generate_file "/p" envG ⟨none, some "\n"⟩ false "f" "a\r\nb" false
        World.empty
      = .ok (World.empty.writeFile "/p/f" (applyNewline "x\ny" (some "\n"))) ∧
    applyNewline "x\ny" (some "\n") = "x\ny" := by
  have h := claim8_new_lines "/p" envG none false "f" "a\r\nb" "f" "x\ny"
    World.empty (by decide) (by decide) (by decide) (by decide) (by decide)
  exact ⟨by simpa [joinPath] using h.2, by decide,
    by simpa [joinPath] using h.1 "\n" (by decide), by decide⟩

/-- Claim C5: a copy-only file is written byte-identically while its output
path is still rendered; a copy-only directory is not recursed into and its
whole subtree is copied by the render-free verbatim copy `copyTreeList`,
whatever renders the environment would have produced beneath it. -/
theorem claim5_copy_without_render :
    (∀ (env : JinjaEnv) (ctx : ContextDict) (pd od : String) (ov sk del : Bool)
      (n : Nat) (root f c : String) (b : Bool) (rp : String) (w : World),
      is_copy_only_path (joinRel root f) ctx = true →
      jrender env (joinRel root f) = .ok rp →
      walkDir env ctx pd od ov sk del (n + 1) root [.file f c b] w
        = .ok (w.writeFile (joinPath pd rp) c)) ∧
    (∀ (env : JinjaEnv) (ctx : ContextDict) (pd od : String) (ov sk del : Bool)
      (n : Nat) (root d : String) (ch : List Entry) (outdir : String) (w : World),
      is_copy_only_path (joinRel root d) ctx = true →
      jrender env (joinPath pd (joinRel root d)) = .ok outdir →
      w.existsPath outdir = false →
      walkDir env ctx pd od ov sk del (n + 1) root [.dir d ch] w
        = .ok (copyTreeList outdir ch (w.mkdir outdir))) := by
  constructor
  · intro env ctx pd od ov sk del n root f c b rp w hcopy hrp
    simp only [walkDir, copyDirsPhase, createDirsPhase, filesPhase, hcopy,
      if_true, hrp, renderSubdirsOf, List.filterMap_cons, List.filterMap_nil,
      walkList]
  · intro env ctx pd od ov sk del n root d ch outdir w hcopy hout hex
    simp only [walkDir, copyDirsPhase, createDirsPhase, filesPhase, hcopy,
      if_true, hout, hex, Bool.false_eq_true, if_false, renderSubdirsOf,
      List.filterMap_cons, List.filterMap_nil, walkList]

/-- A context marking `*.txt` and `static` copy-only, and an environment that
would render the nested body if it were asked to (it never is). -/
def ctxH : ContextDict := ⟨some ["*.txt", "static"], none⟩

def envH : JinjaEnv :=
  ⟨fun _ => none,
   fun s => if s = "notes.txt" then .ok "notes.txt"
     else if s = "/out/proj/static" then .ok "/out/proj/static"
     else .ok "RENDERED"⟩

/-- Witness for C5: `notes.txt` keeps its literal templated body while its
path renders; the `static` directory's subtree lands verbatim. -/
theorem claim5_witness :
    walkDir envH ctxH "/out/proj" "/out" false false true 1 "."
        [.file "notes.txt" "\x7b\x7bcookiecutter.repo_name\x7d\x7d" false]
        World.empty
      = .ok (World.empty.writeFile "/out/proj/notes.txt"
          "\x7b\x7bcookiecutter.repo_name\x7d\x7d") ∧
    walkDir envH ctxH "/out/proj" "/out" false false true 1 "."
        [.dir "static" [.file "inner" "\x7b\x7balso.literal\x7d\x7d" false]]
        World.empty
      = .ok (copyTreeList "/out/proj/static"
          [.file "inner" "\x7b\x7balso.literal\x7d\x7d" false]
          (World.empty.mkdir "/out/proj/static")) := by
  constructor
  · have h := claim5_copy_without_render.1 envH ctxH "/out/proj" "/out"
      false false true 0 "." "notes.txt"
      "\x7b\x7bcookiecutter.repo_name\x7d\x7d" false "notes.txt" World.empty
      (by decide) (by decide)
    simpa [joinPath] using h
  · have h := claim5_copy_without_render.2 envH ctxH "/out/proj" "/out"
      false false true 0 "." "static"
      [.file "inner" "\x7b\x7balso.literal\x7d\x7d" false] "/out/proj/static"
      World.empty (by decide) (by decide) (by decide)
    exact h

/-- Claim C10: when a copy-only directory's rendered output path already
exists (for example on a second run under overwrite-if-exists), the verbatim
directory copy requires a fresh destination and `generate_files` raises a
file-exists error at the copy step instead of overwriting or merging. -/
theorem claim10_copytree_needs_fresh_destination (env : JinjaEnv)
    (ctx : ContextDict) (topName d : String) (ch : List Entry) (od : String)
    (sk : Bool) (hf : String → Bool) (w : World) (r outdir : String)
    (hens : ensure_dir_is_templated topName = true)
    (hjr : jrender env topName = .ok r)
    (hex : w.existsPath (osJoin od r) = true)
    (hcopy : is_copy_only_path d ctx = true)
    (hout : jrender env (joinPath (osJoin od r) d) = .ok outdir)
    (houtex : w.existsPath outdir = true) :
    generate_files env ctx (some (topName, [.dir d ch])) od true sk false hf w
      = .error (.fileExistsError outdir, w) := by
  simp only [generate_files, hens, if_true, render_and_create_dir, hjr, hex,
    entriesFuel, Bool.false_eq_true, if_false, walkDir, copyDirsPhase, joinRel,
    reduceIte, hcopy, hout, houtex]

/-- Fixture for the C10 witness: a second run over an existing output tree. -/
def envI : JinjaEnv :=
  ⟨fun _ => none,
   fun s => if s = "\x7b\x7bx\x7d\x7d" then .ok "proj" else .ok s⟩

def worldI : World :=
  ⟨["/out/proj", "/out/proj/static"], [], [], []⟩

/-- Witness for C10 at a concrete second run with overwrite-if-exists set. -/
theorem claim10_witness :
    generate_files envI ⟨some ["static"], none⟩
        (some ("\x7b\x7bx\x7d\x7d", [.dir "static" []])) "/out" true false
        false (fun _ => false) worldI
      = .error (.fileExistsError "/out/proj/static", worldI) := by
  have h := claim10_copytree_needs_fresh_destination envI ⟨some ["static"], none⟩
    "\x7b\x7bx\x7d\x7d" "static" [] "/out" false (fun _ => false) worldI
    "proj" "/out/proj/static" (by decide) (by decide) (by decide) (by decide)
    (by decide) (by decide)
  simpa [osJoin, strIsPrefix, listIsPrefixC] using h

/-- Claim C1 as amended: whenever a run surfaces a consolidated
`UndefinedVariableInTemplate` error — which is what every undefined-variable
failure while rendering the project directory name, a render-eligible
directory name, or a render-eligible file (path or content) produces — the
message names the failed entry, the original `UndefinedError` cause is
wrapped, and the output tree has been deleted exactly when the top-level
output directory was newly created by this run (a pre-existing output
directory is never deleted and still exists afterwards).  An
undefined-variable error raised while rendering a copy-only entry's output
path, by contrast, escapes unwrapped and deletes nothing. -/
theorem claim1_undefined_cleanup_iff_created (env : JinjaEnv)
    (ctx : ContextDict) (topName : String) (children : List Entry)
    (od : String) (ov sk ah : Bool) (hf : String → Bool) (w : World) :
    (∀ msg cause w',
      generate_files env ctx (some (topName, children)) od ov sk ah hf w
        = .error (.undefinedVariableInTemplate msg cause, w') →
      msgShape msg ∧ causeFrom env cause ∧
      (∀ s, jrender env topName = .undefErr s → w' = w) ∧
      (∀ r, jrender env topName = .ok r →
        (w.existsPath (osJoin od r) = true →
          w'.existsPath (osJoin od r) = true ∧ w'.deletions = w.deletions) ∧
        (w.existsPath (osJoin od r) = false →
          cleanedUnder (osJoin od r) w' ∧
            w'.deletions = w.deletions ++ [osJoin od r]))) ∧
    (∀ e w',
      generate_files env ctx (some (topName, children)) od ov sk ah hf w
        = .error (.undefinedError e, w') →
      w'.deletions = w.deletions ∧ monoW w w') := by
  constructor
  · intro msg cause w' h
    exact generate_files_err h
  · intro e w' h
    exact generate_files_err h

/-- Fixture for the C1 counterexample: the copy-only directory's rendered
output path references an undefined variable. -/
def envD : JinjaEnv :=
  ⟨fun _ => none,
   fun s => if s = "\x7b\x7bx\x7d\x7d" then .ok "proj"
     else if s = "/out/proj/\x7b\x7bq\x7d\x7d-not-rendered" then
       .undefErr "\x27q\x27 is undefined"
     else .ok s⟩

def ctxD : ContextDict := ⟨some ["*not-rendered"], none⟩

/-- Counterexample to claim C1 as stated: an undefined-variable error while
rendering a directory name (here the output path of a copy-only directory,
rendered outside any try/except) escapes as a raw `UndefinedError`, not as a
consolidated `UndefinedVariableInTemplate`, and the newly created output
directory `/out/proj` is not deleted: no `rmtree` ran. -/
theorem claim1_counterexample :
    generate_files envD ctxD
        (some ("\x7b\x7bx\x7d\x7d",
          [.dir "\x7b\x7bq\x7d\x7d-not-rendered" []]))
        "/out" false false false (fun _ => false) World.empty
      = .error (.undefinedError "\x27q\x27 is undefined",
          World.empty.mkdir "/out/proj") ∧
    World.empty.existsPath "/out/proj" = false ∧
    (World.empty.mkdir "/out/proj").existsPath "/out/proj" = true ∧
    (World.empty.mkdir "/out/proj").deletions = [] := by
  have hcopy : is_copy_only_path "\x7b\x7bq\x7d\x7d-not-rendered" ctxD
      = true := by decide
  have hout : jrender envD
      (joinPath "/out/proj" "\x7b\x7bq\x7d\x7d-not-rendered")
      = .undefErr "\x27q\x27 is undefined" := by decide
  refine ⟨?_, by decide, by decide, rfl⟩
  simp [generate_files, ensure_dir_is_templated, strContains, listContainsSub,
    listIsPrefixC, render_and_create_dir, jrender, envD, osJoin, strIsPrefix,
    World.existsPath, World.empty, entriesFuel, walkDir, copyDirsPhase, hcopy,
    hout, World.mkdir, joinRel, joinPath]

/-- Fixture for the C1 witness: a render-eligible file whose path rendering
hits an undefined variable, on a freshly created output directory. -/
def envE : JinjaEnv :=
  ⟨fun _ => none,
   fun s => if s = "\x7b\x7bx\x7d\x7d" then .ok "proj"
     else if s = "f" then .undefErr "\x27y\x27 is undefined"
     else .ok s⟩

/-- Witness for the amended C1: the failing run surfaces the consolidated
error naming the file, and—because this run created `/out/proj`—the whole
tree is deleted (one `rmtree` recorded). -/
theorem claim1_witness :
    generate_files envE ⟨none, none⟩
        (some ("\x7b\x7bx\x7d\x7d", [.file "f" "body" false])) "/out"
        false false false (fun _ => false) World.empty
      = .error (.undefinedVariableInTemplate "Unable to create file \x27f\x27"
          "\x27y\x27 is undefined", ⟨[], [], [], ["/out/proj"]⟩) ∧
    (⟨[], [], [], ["/out/proj"]⟩ : World).deletions
      = World.empty.deletions ++ ["/out/proj"] := by
  have hrun : generate_files envE ⟨none, none⟩
      (some ("\x7b\x7bx\x7d\x7d", [.file "f" "body" false])) "/out"
      false false false (fun _ => false) World.empty
      = .error (.undefinedVariableInTemplate "Unable to create file \x27f\x27"
          "\x27y\x27 is undefined", ⟨[], [], [], ["/out/proj"]⟩) := by
    simp [generate_files, ensure_dir_is_templated, strContains, listContainsSub,
      listIsPrefixC, render_and_create_dir, jrender, envE, osJoin, strIsPrefix,
      World.existsPath, World.empty, entriesFuel, walkDir, copyDirsPhase,
      createDirsPhase, filesPhase, generate_file, is_copy_only_path, joinRel,
      joinPath, World.mkdir, World.rmtreeW, pathUnder]
  refine ⟨hrun, ?_⟩
  exact (((claim1_undefined_cleanup_iff_created envE ⟨none, none⟩
    "\x7b\x7bx\x7d\x7d" [.file "f" "body" false] "/out" false false false
    (fun _ => false) World.empty).1 _ _ _ hrun).2.2.2 "proj"
    (by decide)).2 (by decide) |>.2

end Tackle
